import Mathlib

/-!
Verification of `generate_multi_scale_samples.py` (BMSG-GAN).

The script parses command line arguments, builds a generator, loads its
weights, and then loops `num_samples` times: it samples a latent vector,
runs the generator to obtain a list of images of doubling resolutions,
upsamples them all to the highest resolution (`progressive_upscaling`),
squeezes the batch dimension, composes a grid and writes a PNG file.

Tensors are modelled by their shapes (a list of dimension sizes); the
sample loop is modelled as a trace of events together with a failure
oracle giving, per iteration, the error it raises (if any).
-/

namespace BMSG

/-- Shape of a tensor: the list of its dimension sizes.  A generator output
image is 4-dimensional `[batch, channels, height, width]`; after squeezing
the batch dimension it is 3-dimensional `[channels, height, width]`. -/
abbrev Tensor := List Nat

/-- Shape-level semantics of `torch.nn.functional.interpolate(t, scale_factor=s)`:
the two leading (batch and channel) dimensions are kept, every spatial
dimension is multiplied by the scale factor. -/
def interpolate (t : Tensor) (s : Nat) : Tensor :=
  t.take 2 ++ (t.drop 2).map (fun d => d * s)

/-- Body of the loop inside `progressive_upscaling` (lines 66–70):
`images[len(images) - 1 - factor] = interpolate(images[len(images) - 1 - factor],
scale_factor=pow(2, factor))`. -/
def upscaleStep (imgs : List Tensor) (factor : Nat) : List Tensor :=
  imgs.set (imgs.length - 1 - factor)
    (interpolate (imgs.getD (imgs.length - 1 - factor) []) (2 ^ factor))

/-- Embedding of `progressive_upscaling(images)` (lines 59–72): for
`factor in range(1, len(images))`, replace the image at index
`len(images) - 1 - factor` by its upsampling with scale factor `2 ** factor`. -/
def progressive_upscaling (images : List Tensor) : List Tensor :=
  (List.range' 1 (images.length - 1)).foldl upscaleStep images

/-- Shape-level semantics of `torch.squeeze(x, dim=0)` (line 113): dimension 0
is removed exactly when it has size 1. -/
def squeeze0 (t : Tensor) : Tensor :=
  match t with
  | 1 :: rest => rest
  | other => other

/-- The intermediate image sequences of one iteration of the sample loop
(lines 100–126): what is handed to `progressive_upscaling`, its result, and
what is handed to `make_grid` after the `th.squeeze(x, dim=0)` map. -/
structure IterationStages where
  syncInput : List Tensor
  synchronized : List Tensor
  gridInput : List Tensor
deriving DecidableEq

/-- One iteration of the sample loop at shape level, following the source
order: `ss_images = gen(points)`, then `ss_images = progressive_upscaling(ss_images)`
(line 106), then `ss_images = list(map(lambda x: th.squeeze(x, dim=0), ss_images))`
(line 113), then `make_grid(ss_images, ...)`. -/
def mainIterationStages (genOutput : List Tensor) : IterationStages :=
  { syncInput := genOutput
    synchronized := progressive_upscaling genOutput
    gridInput := (progressive_upscaling genOutput).map squeeze0 }

lemma interpolate_length (t : Tensor) (s : Nat) : (interpolate t s).length = t.length := by
  simp [interpolate]
  omega

lemma upscaleStep_length (imgs : List Tensor) (factor : Nat) :
    (upscaleStep imgs factor).length = imgs.length := by
  simp [upscaleStep]

lemma foldl_upscaleStep_length (fs : List Nat) (l : List Tensor) :
    (fs.foldl upscaleStep l).length = l.length := by
  induction fs generalizing l with
  | nil => rfl
  | cons f fs ih => simp [List.foldl_cons, ih, upscaleStep_length]

lemma foldl_upscaleStep_getD (images : List Tensor) (k : Nat) :
    k ≤ images.length - 1 →
    ∀ i, i < images.length →
      ((List.range' 1 k).foldl upscaleStep images).getD i [] =
        (if images.length - 1 - k ≤ i ∧ i < images.length - 1 then
          interpolate (images.getD i []) (2 ^ (images.length - 1 - i))
        else images.getD i []) := by
  induction k with
  | zero =>
    intro _ i _
    rw [if_neg]
    · rfl
    · omega
  | succ k ih =>
    intro hk i hi
    have hk' : k ≤ images.length - 1 := by omega
    have hrange : List.range' 1 (k + 1) = List.range' 1 k ++ [1 + k] := by
      simpa using @List.range'_concat 1 1 k
    rw [hrange, List.foldl_append, List.foldl_cons, List.foldl_nil]
    set s := (List.range' 1 k).foldl upscaleStep images with hs
    have hlen : s.length = images.length := foldl_upscaleStep_length _ _
    have hjlt : images.length - 2 - k < images.length := by omega
    have hjval : s.getD (images.length - 2 - k) [] = images.getD (images.length - 2 - k) [] := by
      rw [ih hk' _ hjlt, if_neg]
      omega
    have hj : images.length - 1 - (1 + k) = images.length - 2 - k := by omega
    rw [upscaleStep, hlen, hj, hjval]
    by_cases hij : i = images.length - 2 - k
    · subst hij
      rw [List.getD_eq_getElem?_getD, List.getElem?_set_self (by omega),
        Option.getD_some, if_pos (by omega)]
      have hexp : images.length - 1 - (images.length - 2 - k) = 1 + k := by omega
      rw [hexp]
    · rw [List.getD_eq_getElem?_getD, List.getElem?_set_ne (by omega),
        ← List.getD_eq_getElem?_getD, ih hk' i hi]
      by_cases hcond : images.length - 1 - k ≤ i ∧ i < images.length - 1
      · rw [if_pos hcond, if_pos (by omega)]
      · rw [if_neg hcond, if_neg (by omega)]

lemma progressive_upscaling_length (images : List Tensor) :
    (progressive_upscaling images).length = images.length :=
  foldl_upscaleStep_length _ _

lemma progressive_upscaling_getD (images : List Tensor) (i : Nat)
    (hi : i < images.length) :
    (progressive_upscaling images).getD i [] =
      if i = images.length - 1 then images.getD i []
      else interpolate (images.getD i []) (2 ^ (images.length - 1 - i)) := by
  rw [progressive_upscaling,
    foldl_upscaleStep_getD images (images.length - 1) le_rfl i hi]

  by_cases h : i = images.length - 1
  · rw [if_neg (by omega), if_pos h]
  · rw [if_pos (by omega), if_neg h]

lemma progressive_upscaling_shape (images : List Tensor)
    (h : ∀ t ∈ images, t.length = 4 ∧ t.headD 0 = 1) :
    ∀ t ∈ progressive_upscaling images, t.length = 4 ∧ t.headD 0 = 1 := by
  intro t ht
  obtain ⟨i, hi, hti⟩ := List.getElem_of_mem ht
  rw [progressive_upscaling_length] at hi
  rw [List.getElem_eq_iff] at hti
  have hgd : (progressive_upscaling images).getD i [] = t := by
    rw [List.getD_eq_getElem?_getD, hti]
    rfl
  have horig : images.getD i [] ∈ images := by
    rw [List.getD_eq_getElem _ _ hi]
    exact List.getElem_mem hi
  have hshape := h _ horig
  rw [progressive_upscaling_getD images i hi] at hgd
  by_cases hlast : i = images.length - 1
  · rw [if_pos hlast] at hgd
    rw [← hgd]
    exact hshape
  · rw [if_neg hlast] at hgd
    rw [← hgd]
    obtain ⟨u, rest, hu⟩ : ∃ u rest, images.getD i [] = u :: rest := by
      rcases hcases : images.getD i [] with _ | ⟨u, rest⟩
      · rw [hcases] at hshape
        simp at hshape
      · exact ⟨u, rest, rfl⟩
    rw [hu] at hshape ⊢
    obtain ⟨hlen4, hhead⟩ := hshape
    simp only [List.headD_cons] at hhead
    subst hhead
    constructor
    · rw [interpolate_length, hlen4]
    · rfl

/-- Column count used by `make_grid` (lines 116–117):
`int(ceil(sqrt(len(ss_images)))) if args.num_columns is None else args.num_columns`.
The ceiling of the square root is computed on natural numbers via `Nat.sqrt`. -/
def ceil_sqrt (n : Nat) : Nat :=
  if Nat.sqrt n * Nat.sqrt n = n then Nat.sqrt n else Nat.sqrt n + 1

/-- Embedding of the column-count selection of `main` (lines 116–117). -/
def num_cols (num_columns : Option Int) (numImages : Nat) : Int :=
  match num_columns with
  | none => Int.ofNat (ceil_sqrt numImages)
  | some v => v

lemma ceil_sqrt_eq_ceil_real_sqrt (n : Nat) :
    ceil_sqrt n = ⌈Real.sqrt n⌉₊ := by
  rw [ceil_sqrt]
  by_cases h : Nat.sqrt n * Nat.sqrt n = n
  · rw [if_pos h]
    have : (n : ℝ) = (Nat.sqrt n : ℝ) * (Nat.sqrt n : ℝ) := by
      rw [← Nat.cast_mul, h]
    rw [this, Real.sqrt_mul_self (by positivity), Nat.ceil_natCast]
  · rw [if_neg h]
    have hlt : Nat.sqrt n * Nat.sqrt n < n :=
      lt_of_le_of_ne (Nat.sqrt_le n) h
    symm
    rw [Nat.ceil_eq_iff (Nat.succ_ne_zero _)]
    constructor
    · have h2 : ((Nat.sqrt n : ℝ)) ^ 2 < (n : ℝ) := by
        rw [sq, ← Nat.cast_mul]
        exact_mod_cast hlt
      have h3 : (Nat.sqrt n : ℝ) < Real.sqrt n := (Real.lt_sqrt (by positivity)).mpr h2
      simpa using h3
    · push_cast
      exact Real.real_sqrt_le_nat_sqrt_succ

lemma nat_sqrt_eq_of (k n : Nat) (h1 : k * k ≤ n) (h2 : n < (k + 1) * (k + 1)) :
    Nat.sqrt n = k := by
  have hle : k ≤ Nat.sqrt n := Nat.le_sqrt.mpr h1
  have hlt : Nat.sqrt n < k + 1 := Nat.sqrt_lt.mpr h2
  omega

/-- Parsed command line arguments (the `args` record of `parse_arguments`,
lines 22–56, with their defaults already applied). -/
structure Args where
  generator_file : String
  latent_size : Int
  depth : Int
  num_samples : Int
  num_columns : Option Int
  out_dir : String
deriving DecidableEq

/-- Raw command line: for each option, the value given on the invocation,
or `none` when the flag is absent. -/
structure CommandLine where
  generator_file : Option String
  latent_size : Option Int
  depth : Option Int
  num_samples : Option Int
  num_columns : Option Int
  out_dir : Option String
deriving DecidableEq

/-- Embedding of `parse_arguments()` (lines 22–56): `--generator_file` is
`required=True`, so its absence is a usage error raised by `argparse` before
`main` runs; every other option falls back to its declared default
(`latent_size=256`, `depth=6`, `num_samples=300`, `num_columns=None`,
`out_dir="interp_animation_frames/"`). -/
def parse_arguments (cmd : CommandLine) : Except String Args :=
  match cmd.generator_file with
  | none => Except.error "the following arguments are required: --generator_file"
  | some g =>
      Except.ok
        { generator_file := g
          latent_size := cmd.latent_size.getD 256
          depth := cmd.depth.getD 6
          num_samples := cmd.num_samples.getD 300
          num_columns := cmd.num_columns
          out_dir := cmd.out_dir.getD "interp_animation_frames/" }

/-- Observable events of a run of `main` (lines 75–129). -/
inductive Event where
  | modelConstructed (depth latent_size : Int)
  | weightsLoaded (file : String)
  | latentDrawn (img_num : Int)
  | fileWritten (path : String)
  | summaryPrinted (count : Int) (dir : String)
deriving DecidableEq

/-- Semantics of Python's `range(a, b)` over (unbounded) integers. -/
def pythonRange (a b : Int) : List Int :=
  (List.range (b - a).toNat).map (fun (k : Nat) => a + (k : Int))

/-- Semantics of `os.path.join(dir, name)` on POSIX for a relative `name`. -/
def os_path_join (dir name : String) : String :=
  if dir = "" then name
  else if dir.data.getLast? = some '/' then dir ++ name
  else dir ++ "/" ++ name

/-- Path written by iteration `img_num` (line 125):
`os.path.join(save_path, str(img_num) + ".png")`. -/
def filePath (dir : String) (img_num : Int) : String :=
  os_path_join dir (toString img_num ++ ".png")

/-- The sample loop (lines 99–126) over the given list of iteration indices.
`stepError i` is the error the body of iteration `i` raises (from `gen`,
`make_grid` or `imsave`), or `none` when the iteration succeeds.  A raised
error is not caught: the loop stops and the error propagates; a successful
iteration draws a latent vector and writes its PNG file. -/
def runLoop (dir : String) (stepError : Int → Option String) :
    List Int → List Event × Option String
  | [] => ([], none)
  | i :: rest =>
    match stepError i with
    | some e => ([], some e)
    | none =>
        let r := runLoop dir stepError rest
        (Event.latentDrawn i :: Event.fileWritten (filePath dir i) :: r.1, r.2)

/-- Embedding of `main(args)` (lines 75–129) as the trace of its events
together with the error that aborted it, if any: the generator is built and
its weights loaded, then the sample loop runs over
`range(1, args.num_samples + 1)`; the completion summary
(`"Generated %d images at %s"`) is printed only when the loop finished. -/
def main_trace (args : Args) (stepError : Int → Option String) :
    List Event × Option String :=
  let loop := runLoop args.out_dir stepError (pythonRange 1 (args.num_samples + 1))
  (Event.modelConstructed args.depth args.latent_size ::
     Event.weightsLoaded args.generator_file ::
     (loop.1 ++
       (match loop.2 with
        | none => [Event.summaryPrinted args.num_samples args.out_dir]
        | some _ => [])),
   loop.2)

/-- Embedding of the entry point `main(parse_arguments())` (lines 132–133):
a parse failure aborts the process before `main` runs. -/
def runScript (cmd : CommandLine) (stepError : Int → Option String) :
    Except String (List Event × Option String) :=
  match parse_arguments cmd with
  | Except.error e => Except.error e
  | Except.ok args => Except.ok (main_trace args stepError)

/-- The PNG paths recorded in a trace, in the order they were written. -/
def writtenFiles (evs : List Event) : List String :=
  evs.filterMap (fun e =>
    match e with
    | Event.fileWritten p => some p
    | _ => none)

lemma mem_pythonRange (a b i : Int) : i ∈ pythonRange a b ↔ a ≤ i ∧ i < b := by
  constructor
  · intro h
    unfold pythonRange at h
    obtain ⟨k, hk, hik⟩ := List.mem_map.mp h
    rw [List.mem_range] at hk
    omega
  · intro h
    unfold pythonRange
    refine List.mem_map.mpr ⟨(i - a).toNat, ?_, ?_⟩
    · rw [List.mem_range]
      omega
    · omega

lemma pythonRange_split (a k b : Int) (h1 : a ≤ k) (h2 : k ≤ b) :
    pythonRange a b = pythonRange a k ++ pythonRange k b := by
  unfold pythonRange
  have hcount : (b - a).toNat = (k - a).toNat + (b - k).toNat := by omega
  rw [hcount, List.range_add, List.map_append, List.map_map]
  congr 1
  refine List.map_congr_left ?_
  intro x _
  show a + ((((k - a).toNat + x : Nat)) : Int) = k + (x : Int)
  omega

lemma pythonRange_singleton (k : Int) : pythonRange k (k + 1) = [k] := by
  unfold pythonRange
  have h1 : (k + 1 - k).toNat = 1 := by omega
  have h3 : List.range 1 = [0] := by decide
  rw [h1, h3, List.map_cons, List.map_nil]
  have h2 : k + ((0 : Nat) : Int) = k := by omega
  rw [h2]

lemma pythonRange_cons (k b : Int) (h : k < b) :
    pythonRange k b = k :: pythonRange (k + 1) b := by
  rw [pythonRange_split k (k + 1) b (by omega) (by omega), pythonRange_singleton]
  rfl

lemma pythonRange_nodup (a b : Int) : (pythonRange a b).Nodup := by
  unfold pythonRange
  refine List.Nodup.map ?_ (List.nodup_range _)
  intro x y hxy
  have hxy2 : a + (x : Int) = a + (y : Int) := hxy
  omega

lemma pythonRange_length (a b : Int) : (pythonRange a b).length = (b - a).toNat := by
  unfold pythonRange
  rw [List.length_map, List.length_range]

lemma runLoop_ok (dir : String) (stepError : Int → Option String) (l : List Int)
    (h : ∀ i ∈ l, stepError i = none) :
    runLoop dir stepError l =
      (l.flatMap (fun i => [Event.latentDrawn i, Event.fileWritten (filePath dir i)]), none) := by
  induction l with
  | nil => rfl
  | cons a l ih =>
    have ha : stepError a = none := h a (List.mem_cons_self a l)
    rw [runLoop, ha, ih (fun i hi => h i (List.mem_cons_of_mem a hi))]
    rfl

lemma runLoop_fail (dir : String) (stepError : Int → Option String)
    (l1 : List Int) (k : Int) (l2 : List Int) (e : String)
    (h1 : ∀ i ∈ l1, stepError i = none) (hk : stepError k = some e) :
    runLoop dir stepError (l1 ++ k :: l2) =
      (l1.flatMap (fun i => [Event.latentDrawn i, Event.fileWritten (filePath dir i)]), some e) := by
  induction l1 with
  | nil =>
    rw [List.nil_append, runLoop, hk]
    rfl
  | cons a l1 ih =>
    have ha : stepError a = none := h1 a (List.mem_cons_self a l1)
    rw [List.cons_append, runLoop, ha,
      ih (fun i hi => h1 i (List.mem_cons_of_mem a hi))]
    rfl

lemma writtenFiles_flatMap (dir : String) (l : List Int) :
    writtenFiles
        (l.flatMap (fun i => [Event.latentDrawn i, Event.fileWritten (filePath dir i)])) =
      l.map (fun i => filePath dir i) := by
  induction l with
  | nil => rfl
  | cons a l ih =>
    simp only [List.flatMap_cons, writtenFiles, List.filterMap_append, List.map_cons]
    rw [writtenFiles] at ih
    rw [ih]
    rfl

lemma toDigitsCore_eq_digits (fuel : Nat) :
    ∀ (n : Nat) (acc : List Char), 0 < n → n < 10 ^ fuel →
      Nat.toDigitsCore 10 fuel n acc =
        ((Nat.digits 10 n).reverse.map Nat.digitChar) ++ acc := by
  induction fuel with
  | zero =>
    intro n acc hpos hlt
    simp only [pow_zero] at hlt
    omega
  | succ fuel ih =>
    intro n acc hpos hlt
    have hdig : Nat.digits 10 n = n % 10 :: Nat.digits 10 (n / 10) :=
      Nat.digits_def' (by norm_num) hpos
    rw [Nat.toDigitsCore]
    by_cases h : n / 10 = 0
    · rw [if_pos h, hdig, h, Nat.digits_zero, List.reverse_cons, List.reverse_nil,
        List.nil_append, List.map_cons, List.map_nil, List.singleton_append]
    · rw [if_neg h,
        ih (n / 10) (Nat.digitChar (n % 10) :: acc) (Nat.pos_of_ne_zero h)
          (Nat.nat_repr_len_aux n 10 fuel (by norm_num) hlt),
        hdig, List.reverse_cons, List.map_append, List.map_cons, List.map_nil,
        List.append_assoc, List.singleton_append]

lemma nat_repr_eq_digits (n : Nat) (h : 0 < n) :
    Nat.repr n = ((Nat.digits 10 n).reverse.map Nat.digitChar).asString := by
  rw [Nat.repr, Nat.toDigits,
    toDigitsCore_eq_digits (n + 1) n [] h
      (lt_of_lt_of_le (Nat.lt_pow_self (by norm_num) n)
        (Nat.pow_le_pow_right (by norm_num) (Nat.le_succ n))),
    List.append_nil]

lemma digitChar_inj_lt (a b : Nat) (ha : a < 10) (hb : b < 10)
    (h : Nat.digitChar a = Nat.digitChar b) : a = b := by
  interval_cases a <;> interval_cases b <;> first | rfl | exact absurd h (by decide)

lemma map_digitChar_inj (l1 : List Nat) :
    ∀ l2 : List Nat, (∀ x ∈ l1, x < 10) → (∀ x ∈ l2, x < 10) →
      l1.map Nat.digitChar = l2.map Nat.digitChar → l1 = l2 := by
  induction l1 with
  | nil =>
    intro l2 _ _ h
    cases l2 with
    | nil => rfl
    | cons b l2 => exact absurd h (by simp)
  | cons a l1 ih =>
    intro l2 h1 h2 h
    cases l2 with
    | nil => exact absurd h (by simp)
    | cons b l2 =>
      rw [List.map_cons, List.map_cons] at h
      injection h with hab htl
      have ha : a = b :=
        digitChar_inj_lt a b (h1 a (List.mem_cons_self a l1))
          (h2 b (List.mem_cons_self b l2)) hab
      rw [ha, ih l2 (fun x hx => h1 x (List.mem_cons_of_mem a hx))
        (fun x hx => h2 x (List.mem_cons_of_mem b hx)) htl]

lemma nat_repr_inj_pos (a b : Nat) (ha : 0 < a) (hb : 0 < b)
    (h : Nat.repr a = Nat.repr b) : a = b := by
  rw [nat_repr_eq_digits a ha, nat_repr_eq_digits b hb, List.asString_inj] at h
  have hrev : (Nat.digits 10 a).reverse = (Nat.digits 10 b).reverse :=
    map_digitChar_inj _ _
      (fun x hx => Nat.digits_lt_base (by norm_num) (List.mem_reverse.mp hx))
      (fun x hx => Nat.digits_lt_base (by norm_num) (List.mem_reverse.mp hx)) h
  have hdig : Nat.digits 10 a = Nat.digits 10 b := List.reverse_injective hrev
  exact Nat.digits.injective 10 hdig

lemma toString_intCast_nat (n : Nat) : toString ((n : Int)) = Nat.repr n := rfl

lemma toString_int_inj_pos (a b : Int) (ha : 1 ≤ a) (hb : 1 ≤ b)
    (h : toString a = toString b) : a = b := by
  obtain ⟨m, rfl⟩ := Int.eq_ofNat_of_zero_le (le_trans (by norm_num) ha)
  obtain ⟨p, rfl⟩ := Int.eq_ofNat_of_zero_le (le_trans (by norm_num) hb)
  rw [toString_intCast_nat, toString_intCast_nat] at h
  have : m = p := nat_repr_inj_pos m p (by omega) (by omega) h
  rw [this]

lemma string_append_cancel_left (s t u : String) (h : s ++ t = s ++ u) : t = u := by
  have hd : s.data ++ t.data = s.data ++ u.data := by
    rw [← String.data_append, ← String.data_append, h]
  have h2 : t.data = u.data := List.append_cancel_left hd
  cases t
  cases u
  exact congrArg String.mk h2

lemma string_append_cancel_right (s t u : String) (h : s ++ u = t ++ u) : s = t := by
  have hd : s.data ++ u.data = t.data ++ u.data := by
    rw [← String.data_append, ← String.data_append, h]
  have h2 : s.data = t.data := List.append_cancel_right hd
  cases s
  cases t
  exact congrArg String.mk h2

lemma filePath_inj_pos (dir : String) (a b : Int) (ha : 1 ≤ a) (hb : 1 ≤ b)
    (h : filePath dir a = filePath dir b) : a = b := by
  rw [filePath, filePath, os_path_join, os_path_join] at h
  have hsfx : toString a ++ ".png" = toString b ++ ".png" := by
    by_cases h1 : dir = ""
    · rw [if_pos h1, if_pos h1] at h
      exact h
    · rw [if_neg h1, if_neg h1] at h
      by_cases h2 : dir.data.getLast? = some '/'
      · rw [if_pos h2, if_pos h2] at h
        exact string_append_cancel_left _ _ _ h
      · rw [if_neg h2, if_neg h2] at h
        exact string_append_cancel_left _ _ _
          (string_append_cancel_left _ _ _
            (by rw [String.append_assoc, String.append_assoc] at h; exact h))
  exact toString_int_inj_pos a b ha hb (string_append_cancel_right _ _ _ hsfx)

/-- Latent-vector rescaling of the sampler (lines 102–103):
`points = (points / points.norm()) * sqrt(args.latent_size)`, i.e.
multiplication of the drawn vector by the scalar `sqrt(D) / ||points||`,
modelled over the reals. -/
noncomputable def rescaleLatent (D : Nat) (points : EuclideanSpace ℝ (Fin D)) :
    EuclideanSpace ℝ (Fin D) :=
  (Real.sqrt D / ‖points‖) • points

/-- C1: for an image sequence of length `L` whose resolutions double with the
index (spatial size `2^i * r` at index `i`), `progressive_upscaling` replaces,
for each `factor` from `1` to `L-1`, the image at index `L-1-factor` by that
image upscaled by `2^factor`; afterwards every image has spatial resolution
`2^(L-1) * r`, and the length and ordering of the sequence are preserved. -/
theorem progressive_upscaling_synchronizes (images : List Tensor) (n c r L : Nat)
    (hL : images.length = L)
    (hshape : ∀ i, i < L → images.getD i [] = [n, c, 2 ^ i * r, 2 ^ i * r]) :
    (progressive_upscaling images).length = L
    ∧ (∀ factor, 1 ≤ factor → factor ≤ L - 1 →
        (progressive_upscaling images).getD (L - 1 - factor) [] =
          interpolate (images.getD (L - 1 - factor) []) (2 ^ factor))
    ∧ (∀ i, i < L →
        (progressive_upscaling images).getD i [] =
          [n, c, 2 ^ (L - 1) * r, 2 ^ (L - 1) * r]) := by
  subst hL
  refine ⟨progressive_upscaling_length images, ?_, ?_⟩
  · intro factor h1 h2
    have hidx : images.length - 1 - factor < images.length := by omega
    rw [progressive_upscaling_getD images _ hidx, if_neg (by omega)]
    have hexp : images.length - 1 - (images.length - 1 - factor) = factor := by omega
    rw [hexp]
  · intro i hi
    rw [progressive_upscaling_getD images i hi]
    by_cases h : i = images.length - 1
    · rw [if_pos h, hshape i hi, h]
    · rw [if_neg h, hshape i hi]
      have hcomp : interpolate [n, c, 2 ^ i * r, 2 ^ i * r]
          (2 ^ (images.length - 1 - i)) =
          [n, c, 2 ^ i * r * 2 ^ (images.length - 1 - i),
            2 ^ i * r * 2 ^ (images.length - 1 - i)] := rfl
      rw [hcomp]
      have hsum : i + (images.length - 1 - i) = images.length - 1 := by omega
      have hval : 2 ^ i * r * 2 ^ (images.length - 1 - i) =
          2 ^ (images.length - 1) * r := by
        calc 2 ^ i * r * 2 ^ (images.length - 1 - i)
            = 2 ^ i * 2 ^ (images.length - 1 - i) * r := by ring
          _ = 2 ^ (i + (images.length - 1 - i)) * r := by rw [pow_add]
          _ = 2 ^ (images.length - 1) * r := by rw [hsum]
      rw [hval]

/-- Witness for C1 at the concrete sequence of shapes
`[1,3,2,2], [1,3,4,4], [1,3,8,8]` (L = 3, r = 2). -/
theorem progressive_upscaling_synchronizes_witness :
    ([[1, 3, 2, 2], [1, 3, 4, 4], [1, 3, 8, 8]] : List Tensor).length = 3
    ∧ (∀ i, i < 3 →
        ([[1, 3, 2, 2], [1, 3, 4, 4], [1, 3, 8, 8]] : List Tensor).getD i [] =
          [1, 3, 2 ^ i * 2, 2 ^ i * 2])
    ∧ ((progressive_upscaling [[1, 3, 2, 2], [1, 3, 4, 4], [1, 3, 8, 8]]).length = 3
       ∧ (∀ factor, 1 ≤ factor → factor ≤ 3 - 1 →
           (progressive_upscaling [[1, 3, 2, 2], [1, 3, 4, 4], [1, 3, 8, 8]]).getD
               (3 - 1 - factor) [] =
             interpolate
               (([[1, 3, 2, 2], [1, 3, 4, 4], [1, 3, 8, 8]] : List Tensor).getD
                 (3 - 1 - factor) [])
               (2 ^ factor))
       ∧ (∀ i, i < 3 →
           (progressive_upscaling [[1, 3, 2, 2], [1, 3, 4, 4], [1, 3, 8, 8]]).getD i [] =
             [1, 3, 2 ^ (3 - 1) * 2, 2 ^ (3 - 1) * 2])) :=
  ⟨rfl, by decide,
    progressive_upscaling_synchronizes [[1, 3, 2, 2], [1, 3, 4, 4], [1, 3, 8, 8]]
      1 3 2 3 rfl (by decide)⟩

/-- C2 counterexample: in the code, the squeeze of the batch dimension
happens only after `progressive_upscaling` (line 113 comes after line 106),
so the input handed to the resolution synchronizer still carries the
singleton batch dimension: its tensors are 4-dimensional, not 3-dimensional,
already at the concrete generator output `[[1,3,4,4],[1,3,8,8]]`. -/
theorem sync_input_batch_present_cex :
    ¬ (∀ t ∈ (mainIterationStages [[1, 3, 4, 4], [1, 3, 8, 8]]).syncInput,
        t.length = 3) := by
  decide

/-- C2 amended: each generator output image carries a singleton batch
dimension which is removed after the resolution synchronizer and before the
grid composer: `progressive_upscaling` operates on 4-dimensional images
whose leading dimension is 1, and `make_grid` operates on the squeezed
3-dimensional images. -/
theorem squeeze_after_sync (genOutput : List Tensor)
    (h : ∀ t ∈ genOutput, t.length = 4 ∧ t.headD 0 = 1) :
    (mainIterationStages genOutput).syncInput = genOutput
    ∧ (∀ t ∈ (mainIterationStages genOutput).syncInput,
        t.length = 4 ∧ t.headD 0 = 1)
    ∧ (mainIterationStages genOutput).gridInput =
        (progressive_upscaling genOutput).map squeeze0
    ∧ (∀ t ∈ (mainIterationStages genOutput).gridInput, t.length = 3) := by
  refine ⟨rfl, h, rfl, ?_⟩
  intro t ht
  have ht2 : t ∈ (progressive_upscaling genOutput).map squeeze0 := ht
  obtain ⟨u, hu, rfl⟩ := List.mem_map.mp ht2
  obtain ⟨h4, h1⟩ := progressive_upscaling_shape genOutput h u hu
  cases u with
  | nil => simp at h4
  | cons a rest =>
    simp only [List.headD_cons] at h1
    subst h1
    have hsq : squeeze0 (1 :: rest) = rest := rfl
    rw [hsq]
    simp only [List.length_cons] at h4
    omega

/-- Witness for the amended C2 at the concrete generator output
`[[1,3,4,4],[1,3,8,8]]`. -/
theorem squeeze_after_sync_witness :
    (∀ t ∈ ([[1, 3, 4, 4], [1, 3, 8, 8]] : List Tensor),
        t.length = 4 ∧ t.headD 0 = 1)
    ∧ ((mainIterationStages [[1, 3, 4, 4], [1, 3, 8, 8]]).syncInput =
          [[1, 3, 4, 4], [1, 3, 8, 8]]
       ∧ (∀ t ∈ (mainIterationStages [[1, 3, 4, 4], [1, 3, 8, 8]]).syncInput,
            t.length = 4 ∧ t.headD 0 = 1)
       ∧ (mainIterationStages [[1, 3, 4, 4], [1, 3, 8, 8]]).gridInput =
            (progressive_upscaling [[1, 3, 4, 4], [1, 3, 8, 8]]).map squeeze0
       ∧ (∀ t ∈ (mainIterationStages [[1, 3, 4, 4], [1, 3, 8, 8]]).gridInput,
            t.length = 3)) :=
  ⟨by decide, squeeze_after_sync [[1, 3, 4, 4], [1, 3, 8, 8]] (by decide)⟩

/-- C3: the grid composer uses `ceil(sqrt(L))` columns when `--num_columns`
is not configured (so 3 columns for L = 6, 3 for L = 9, 4 for L = 10), and
exactly the configured value otherwise, regardless of L. -/
theorem num_cols_spec :
    (∀ L : Nat, num_cols none L = Int.ofNat ⌈Real.sqrt (L : ℝ)⌉₊)
    ∧ num_cols none 6 = 3
    ∧ num_cols none 9 = 3
    ∧ num_cols none 10 = 4
    ∧ (∀ (v : Int) (L : Nat), num_cols (some v) L = v) := by
  refine ⟨?_, ?_, ?_, ?_, fun v L => rfl⟩
  · intro L
    show Int.ofNat (ceil_sqrt L) = Int.ofNat ⌈Real.sqrt (L : ℝ)⌉₊
    rw [ceil_sqrt_eq_ceil_real_sqrt]
  · show Int.ofNat (ceil_sqrt 6) = 3
    rw [ceil_sqrt, nat_sqrt_eq_of 2 6 (by norm_num) (by norm_num)]
    norm_num
  · show Int.ofNat (ceil_sqrt 9) = 3
    rw [ceil_sqrt, nat_sqrt_eq_of 3 9 (by norm_num) (by norm_num)]
    norm_num
  · show Int.ofNat (ceil_sqrt 10) = 4
    rw [ceil_sqrt, nat_sqrt_eq_of 3 10 (by norm_num) (by norm_num)]
    norm_num

/-- C4: for every latent dimension D > 0 and every drawn vector with nonzero
norm, the sampler rescaling yields a vector of Euclidean norm exactly √D. -/
theorem rescaled_latent_norm (D : Nat) (hD : 0 < D)
    (v : EuclideanSpace ℝ (Fin D)) (hv : v ≠ 0) :
    ‖rescaleLatent D v‖ = Real.sqrt D := by
  have hnv : ‖v‖ ≠ 0 := norm_ne_zero_iff.mpr hv
  rw [rescaleLatent, norm_smul, Real.norm_eq_abs, abs_div,
    abs_of_nonneg (Real.sqrt_nonneg _), abs_of_nonneg (norm_nonneg _),
    div_mul_cancel₀ _ hnv]

/-- Witness for C4 at D = 1 and the standard basis vector. -/
theorem rescaled_latent_norm_witness :
    0 < 1
    ∧ EuclideanSpace.single (0 : Fin 1) (1 : ℝ) ≠ 0
    ∧ ‖rescaleLatent 1 (EuclideanSpace.single (0 : Fin 1) (1 : ℝ))‖ =
        Real.sqrt ((1 : Nat) : ℝ) := by
  have hne : EuclideanSpace.single (0 : Fin 1) (1 : ℝ) ≠ 0 := by
    intro hzero
    have hnorm := congrArg norm hzero
    rw [EuclideanSpace.norm_single, norm_zero, norm_one] at hnorm
    exact one_ne_zero hnorm
  exact ⟨Nat.one_pos, hne, rescaled_latent_norm 1 Nat.one_pos _ hne⟩

lemma main_trace_ok (args : Args) (stepError : Int → Option String)
    (hok : ∀ i : Int, stepError i = none) :
    main_trace args stepError =
      (Event.modelConstructed args.depth args.latent_size ::
        Event.weightsLoaded args.generator_file ::
        (((pythonRange 1 (args.num_samples + 1)).flatMap
            (fun i => [Event.latentDrawn i, Event.fileWritten (filePath args.out_dir i)])) ++
          [Event.summaryPrinted args.num_samples args.out_dir]),
       none) := by
  have hloop := runLoop_ok args.out_dir stepError
    (pythonRange 1 (args.num_samples + 1)) (fun i _ => hok i)
  simp only [main_trace, hloop]

lemma writtenFiles_cons2 (e1 e2 : Event) (l : List Event)
    (h1 : ∀ p, e1 ≠ Event.fileWritten p) (h2 : ∀ p, e2 ≠ Event.fileWritten p) :
    writtenFiles (e1 :: e2 :: l) = writtenFiles l := by
  rw [writtenFiles, List.filterMap_cons, List.filterMap_cons]
  cases e1 <;> cases e2 <;> first
    | rfl
    | exact absurd rfl (h1 _)
    | exact absurd rfl (h2 _)

/-- C5: with `num_samples = N ≥ 1` and no iteration failing, the sample loop
writes exactly N files, the file of iteration `i` being
`os.path.join(out_dir, str(i) + ".png")` for the 1-based indices
`i = 1, ..., N`, all N paths distinct, and the run completes. -/
theorem sample_loop_output_files (args : Args) (stepError : Int → Option String)
    (hN : 1 ≤ args.num_samples)
    (hok : ∀ i : Int, stepError i = none) :
    writtenFiles (main_trace args stepError).1 =
      (pythonRange 1 (args.num_samples + 1)).map (fun i => filePath args.out_dir i)
    ∧ (writtenFiles (main_trace args stepError).1).length = args.num_samples.toNat
    ∧ (writtenFiles (main_trace args stepError).1).Nodup
    ∧ (main_trace args stepError).2 = none := by
  have hmt := main_trace_ok args stepError hok
  have hwf : writtenFiles (main_trace args stepError).1 =
      (pythonRange 1 (args.num_samples + 1)).map (fun i => filePath args.out_dir i) := by
    rw [hmt]
    rw [writtenFiles_cons2 _ _ _ (fun p => by simp) (fun p => by simp),
      writtenFiles, List.filterMap_append]
    have h1 := writtenFiles_flatMap args.out_dir (pythonRange 1 (args.num_samples + 1))
    rw [writtenFiles] at h1
    rw [h1]
    simp
  refine ⟨hwf, ?_, ?_, by rw [hmt]⟩
  · rw [hwf, List.length_map, pythonRange_length]
    omega
  · rw [hwf]
    refine List.Nodup.map_on ?_ (pythonRange_nodup _ _)
    intro x hx y hy hf
    exact filePath_inj_pos args.out_dir x y
      ((mem_pythonRange _ _ _).mp hx).1 ((mem_pythonRange _ _ _).mp hy).1 hf

/-- Witness for C5 at `num_samples = 2`, `out_dir = "out"`: the two files
written are exactly `out/1.png` and `out/2.png`. -/
theorem sample_loop_output_files_witness :
    (1 : Int) ≤ (Args.mk "gen.pth" 256 6 2 none "out").num_samples
    ∧ (∀ i : Int, (fun _ : Int => (none : Option String)) i = none)
    ∧ (writtenFiles
          (main_trace (Args.mk "gen.pth" 256 6 2 none "out") (fun _ => none)).1 =
        (pythonRange 1 ((Args.mk "gen.pth" 256 6 2 none "out").num_samples + 1)).map
          (fun i => filePath (Args.mk "gen.pth" 256 6 2 none "out").out_dir i)
       ∧ (writtenFiles
            (main_trace (Args.mk "gen.pth" 256 6 2 none "out") (fun _ => none)).1).length =
          (Args.mk "gen.pth" 256 6 2 none "out").num_samples.toNat
       ∧ (writtenFiles
            (main_trace (Args.mk "gen.pth" 256 6 2 none "out") (fun _ => none)).1).Nodup
       ∧ (main_trace (Args.mk "gen.pth" 256 6 2 none "out") (fun _ => none)).2 = none)
    ∧ writtenFiles
        (main_trace (Args.mk "gen.pth" 256 6 2 none "out") (fun _ => none)).1 =
        ["out/1.png", "out/2.png"] :=
  ⟨by decide, fun _ => rfl,
    sample_loop_output_files (Args.mk "gen.pth" 256 6 2 none "out")
      (fun _ => none) (by decide) (fun _ => rfl),
    by decide⟩

/-- C6: when `--generator_file` is absent, argument parsing fails with a
usage error and the script aborts before `main` runs: no model construction,
weight loading or sampling event is ever produced. -/
theorem missing_generator_file_fails (cmd : CommandLine)
    (stepError : Int → Option String) (h : cmd.generator_file = none) :
    parse_arguments cmd =
      Except.error "the following arguments are required: --generator_file"
    ∧ runScript cmd stepError =
      Except.error "the following arguments are required: --generator_file" := by
  have hp : parse_arguments cmd =
      Except.error "the following arguments are required: --generator_file" := by
    rw [parse_arguments, h]
  exact ⟨hp, by rw [runScript, hp]⟩

/-- Witness for C6 at the empty command line. -/
theorem missing_generator_file_fails_witness :
    (CommandLine.mk none none none none none none).generator_file = none
    ∧ (parse_arguments (CommandLine.mk none none none none none none) =
        Except.error "the following arguments are required: --generator_file"
       ∧ runScript (CommandLine.mk none none none none none none) (fun _ => none) =
        Except.error "the following arguments are required: --generator_file") :=
  ⟨rfl, missing_generator_file_fails (CommandLine.mk none none none none none none)
    (fun _ => none) rfl⟩

/-- C7: no error raised inside the sample loop is caught or retried: if
iterations 1..k-1 succeed and iteration k raises `e`, the trace contains
exactly the latent draws and file writes of iterations 1..k-1, the files
written are exactly those of iterations 1..k-1, no summary is printed, and
the run aborts with `e`. -/
theorem loop_failure_aborts (args : Args) (stepError : Int → Option String)
    (k : Int) (e : String) (hk1 : 1 ≤ k) (hkN : k ≤ args.num_samples)
    (hok : ∀ i : Int, 1 ≤ i → i < k → stepError i = none)
    (hfail : stepError k = some e) :
    main_trace args stepError =
      (Event.modelConstructed args.depth args.latent_size ::
        Event.weightsLoaded args.generator_file ::
        ((pythonRange 1 k).flatMap
          (fun i => [Event.latentDrawn i, Event.fileWritten (filePath args.out_dir i)])),
       some e)
    ∧ writtenFiles (main_trace args stepError).1 =
        (pythonRange 1 k).map (fun i => filePath args.out_dir i)
    ∧ (∀ c d, Event.summaryPrinted c d ∉ (main_trace args stepError).1) := by
  have hsplit : pythonRange 1 (args.num_samples + 1) =
      pythonRange 1 k ++ k :: pythonRange (k + 1) (args.num_samples + 1) := by
    rw [pythonRange_split 1 k (args.num_samples + 1) hk1 (by omega),
      pythonRange_cons k (args.num_samples + 1) (by omega)]
  have hloop := runLoop_fail args.out_dir stepError (pythonRange 1 k) k
    (pythonRange (k + 1) (args.num_samples + 1)) e
    (fun i hi => hok i ((mem_pythonRange 1 k i).mp hi).1 ((mem_pythonRange 1 k i).mp hi).2)
    hfail
  have hmt : main_trace args stepError =
      (Event.modelConstructed args.depth args.latent_size ::
        Event.weightsLoaded args.generator_file ::
        ((pythonRange 1 k).flatMap
          (fun i => [Event.latentDrawn i, Event.fileWritten (filePath args.out_dir i)])),
       some e) := by
    simp only [main_trace, hsplit, hloop, List.append_nil]
  refine ⟨hmt, ?_, ?_⟩
  · rw [hmt]
    rw [writtenFiles_cons2 _ _ _ (fun p => by simp) (fun p => by simp)]
    exact writtenFiles_flatMap args.out_dir (pythonRange 1 k)
  · intro c d hmem
    rw [hmt] at hmem
    simp only [List.mem_cons, List.mem_flatMap] at hmem
    rcases hmem with h1 | h1 | ⟨i, _, h1⟩
    · exact absurd h1 (by simp)
    · exact absurd h1 (by simp)
    · simp at h1

/-- Witness for C7: three iterations, iteration 2 fails with "disk full";
only the file of iteration 1 is written and no summary is printed. -/
theorem loop_failure_aborts_witness :
    (1 : Int) ≤ 2
    ∧ (2 : Int) ≤ (Args.mk "gen.pth" 256 6 3 none "out").num_samples
    ∧ (∀ i : Int, 1 ≤ i → i < 2 →
        (fun j : Int => if j = 2 then some "disk full" else none) i = none)
    ∧ (fun j : Int => if j = 2 then some "disk full" else none) 2 = some "disk full"
    ∧ (main_trace (Args.mk "gen.pth" 256 6 3 none "out")
          (fun j : Int => if j = 2 then some "disk full" else none) =
        (Event.modelConstructed (Args.mk "gen.pth" 256 6 3 none "out").depth
            (Args.mk "gen.pth" 256 6 3 none "out").latent_size ::
          Event.weightsLoaded (Args.mk "gen.pth" 256 6 3 none "out").generator_file ::
          ((pythonRange 1 2).flatMap
            (fun i => [Event.latentDrawn i,
              Event.fileWritten
                (filePath (Args.mk "gen.pth" 256 6 3 none "out").out_dir i)])),
         some "disk full")
       ∧ writtenFiles
            (main_trace (Args.mk "gen.pth" 256 6 3 none "out")
              (fun j : Int => if j = 2 then some "disk full" else none)).1 =
          (pythonRange 1 2).map
            (fun i => filePath (Args.mk "gen.pth" 256 6 3 none "out").out_dir i)
       ∧ (∀ c d, Event.summaryPrinted c d ∉
            (main_trace (Args.mk "gen.pth" 256 6 3 none "out")
              (fun j : Int => if j = 2 then some "disk full" else none)).1)) :=
  ⟨by decide, by decide,
    fun i h1 h2 => by
      have hi : i = 1 := by omega
      subst hi
      rfl,
    rfl,
    loop_failure_aborts (Args.mk "gen.pth" 256 6 3 none "out")
      (fun j : Int => if j = 2 then some "disk full" else none) 2 "disk full"
      (by decide) (by decide)
      (fun i h1 h2 => by
        have hi : i = 1 := by omega
        subst hi
        rfl)
      rfl⟩

/-- C8: on a sequence of length 1, `progressive_upscaling` is a no-op: the
loop ranges over the empty `range(1, 1)` and the output equals the input. -/
theorem upscaling_singleton_noop (t : Tensor) :
    progressive_upscaling [t] = [t] ∧ List.range' 1 ([t].length - 1) = [] :=
  ⟨rfl, rfl⟩

/-- C9: on any list of images, `progressive_upscaling` upscales the element
at each index `i < L-1` by exactly `2^(L-1-i)`, leaves the last element
untouched, preserves the length, and maps the empty list to itself. -/
theorem upscaling_general_pointwise (images : List Tensor) (i : Nat)
    (hi : i < images.length - 1) :
    (progressive_upscaling images).length = images.length
    ∧ (progressive_upscaling images).getD i [] =
        interpolate (images.getD i []) (2 ^ (images.length - 1 - i))
    ∧ (progressive_upscaling images).getD (images.length - 1) [] =
        images.getD (images.length - 1) []
    ∧ progressive_upscaling ([] : List Tensor) = [] := by
  refine ⟨progressive_upscaling_length images, ?_, ?_, rfl⟩
  · rw [progressive_upscaling_getD images i (by omega), if_neg (by omega)]
  · rw [progressive_upscaling_getD images (images.length - 1) (by omega), if_pos rfl]

/-- Witness for C9 at a three-element list and index 0. -/
theorem upscaling_general_pointwise_witness :
    0 < ([[1, 3, 2, 2], [1, 1, 5, 7], [2, 3, 8, 8]] : List Tensor).length - 1
    ∧ ((progressive_upscaling [[1, 3, 2, 2], [1, 1, 5, 7], [2, 3, 8, 8]]).length =
        ([[1, 3, 2, 2], [1, 1, 5, 7], [2, 3, 8, 8]] : List Tensor).length
       ∧ (progressive_upscaling [[1, 3, 2, 2], [1, 1, 5, 7], [2, 3, 8, 8]]).getD 0 [] =
          interpolate
            (([[1, 3, 2, 2], [1, 1, 5, 7], [2, 3, 8, 8]] : List Tensor).getD 0 [])
            (2 ^ (([[1, 3, 2, 2], [1, 1, 5, 7], [2, 3, 8, 8]] : List Tensor).length - 1 - 0))
       ∧ (progressive_upscaling [[1, 3, 2, 2], [1, 1, 5, 7], [2, 3, 8, 8]]).getD
            (([[1, 3, 2, 2], [1, 1, 5, 7], [2, 3, 8, 8]] : List Tensor).length - 1) [] =
          ([[1, 3, 2, 2], [1, 1, 5, 7], [2, 3, 8, 8]] : List Tensor).getD
            (([[1, 3, 2, 2], [1, 1, 5, 7], [2, 3, 8, 8]] : List Tensor).length - 1) []
       ∧ progressive_upscaling ([] : List Tensor) = []) :=
  ⟨by decide,
    upscaling_general_pointwise [[1, 3, 2, 2], [1, 1, 5, 7], [2, 3, 8, 8]] 0 (by decide)⟩

/-- C10: for `num_samples ≤ 0` the loop over `range(1, num_samples + 1)` is
empty: no latent vector is drawn, no file is written, and the run still
completes successfully, printing the summary with `num_samples` as count. -/
theorem nonpositive_num_samples_empty_run (args : Args)
    (stepError : Int → Option String) (h : args.num_samples ≤ 0) :
    main_trace args stepError =
      ([Event.modelConstructed args.depth args.latent_size,
        Event.weightsLoaded args.generator_file,
        Event.summaryPrinted args.num_samples args.out_dir], none)
    ∧ pythonRange 1 (args.num_samples + 1) = [] := by
  have hr : pythonRange 1 (args.num_samples + 1) = [] := by
    unfold pythonRange
    have h0 : (args.num_samples + 1 - 1).toNat = 0 := by omega
    rw [h0]
    rfl
  refine ⟨?_, hr⟩
  simp only [main_trace, hr, runLoop, List.nil_append]

/-- Witness for C10 at `num_samples = 0`. -/
theorem nonpositive_num_samples_empty_run_witness :
    (Args.mk "gen.pth" 256 6 0 none "out").num_samples ≤ 0
    ∧ (main_trace (Args.mk "gen.pth" 256 6 0 none "out") (fun _ => none) =
        ([Event.modelConstructed (Args.mk "gen.pth" 256 6 0 none "out").depth
            (Args.mk "gen.pth" 256 6 0 none "out").latent_size,
          Event.weightsLoaded (Args.mk "gen.pth" 256 6 0 none "out").generator_file,
          Event.summaryPrinted (Args.mk "gen.pth" 256 6 0 none "out").num_samples
            (Args.mk "gen.pth" 256 6 0 none "out").out_dir], none)
       ∧ pythonRange 1 ((Args.mk "gen.pth" 256 6 0 none "out").num_samples + 1) = []) :=
  ⟨by decide,
    nonpositive_num_samples_empty_run (Args.mk "gen.pth" 256 6 0 none "out")
      (fun _ => none) (by decide)⟩

end BMSG
